import Mathlib

/-!
Verification of the agent-firewall core against its specification.

The Python sources are shallowly embedded: strings are `List Char`,
Python floats carrying L2 confidences are rationals, and the
dependency-injected analyzers of `intercept_and_analyze` are function
arguments, exactly as in the source.  Wall-clock timestamps and the
random request-id generator are passed in explicitly where the source
calls `time.time()` / `uuid.uuid4()`.
-/

namespace AgentFirewall

/-- Convert a string literal to the `List Char` representation used throughout. -/
def chars (s : String) : List Char := s.toList

/-- `models.ThreatLevel` — severity classification of detected threats. -/
inductive ThreatLevel
  | none
  | low
  | medium
  | high
  | critical
deriving DecidableEq, Repr

/-- `models.Verdict` — firewall decision on a given request. -/
inductive Verdict
  | allow
  | block
  | escalate
deriving DecidableEq, Repr

/-- `Verdict.value` — the string payload of the enum member. -/
def Verdict.value : Verdict → List Char
  | .allow => chars "ALLOW"
  | .block => chars "BLOCK"
  | .escalate => chars "ESCALATE"

/-- `ThreatLevel.value` — the string payload of the enum member. -/
def ThreatLevel.value : ThreatLevel → List Char
  | .none => chars "NONE"
  | .low => chars "LOW"
  | .medium => chars "MEDIUM"
  | .high => chars "HIGH"
  | .critical => chars "CRITICAL"

/-- `static_analyzer._threat_ord` — map ThreatLevel to ordinal for comparison. -/
def threatOrd : ThreatLevel → Nat
  | .none => 0
  | .low => 1
  | .medium => 2
  | .high => 3
  | .critical => 4

/-- `static_analyzer.L1Result` — aggregated output of the static analysis pass. -/
structure L1Result where
  matched_patterns : List (List Char)
  threat_level : ThreatLevel
deriving DecidableEq, Repr

/-- `semantic_analyzer.L2Result` — output of the semantic analysis pass.
Python float confidences are embedded as rationals. -/
structure L2Result where
  is_injection : Bool
  confidence : ℚ
  reasoning : List Char
  threat_level : ThreatLevel
deriving DecidableEq, Repr

/-- `L2Result()` — the constructor defaults used when L2 is skipped. -/
def L2Result.mkDefault : L2Result :=
  { is_injection := false, confidence := 0, reasoning := [], threat_level := ThreatLevel.none }

/-- Python `sep.join(parts)`. -/
def joinSep (sep : List Char) : List (List Char) → List Char
  | [] => []
  | [x] => x
  | x :: xs => x ++ sep ++ joinSep sep xs

/-- Decimal digits of a natural number, most significant first. -/
def natToChars (n : Nat) : List Char :=
  if h : n < 10 then [Char.ofNat (48 + n)]
  else natToChars (n / 10) ++ [Char.ofNat (48 + n % 10)]
decreasing_by exact Nat.div_lt_self (by omega) (by omega)

/-- Python `f-string` formatting `{x:.2f}`: round to two decimals
(ties to even) and print with exactly two fractional digits. -/
def fmt2 (q : ℚ) : List Char :=
  let s : ℚ := q * 100
  let f : Int := ⌊s⌋
  let r : ℚ := s - (f : ℚ)
  let n : Int :=
    if r < 1/2 then f else if 1/2 < r then f + 1 else if f % 2 = 0 then f else f + 1
  let m : Nat := n.natAbs
  (if n < 0 then [Char.ofNat 45] else []) ++
    natToChars (m / 100) ++ [Char.ofNat 46] ++
    [Char.ofNat (48 + m / 10 % 10), Char.ofNat (48 + m % 10)]

/-- Shared helper: the threat aggregation performed by `_compute_verdict`
(`threat = l1.threat_level; if ord l2 > ord threat: threat = l2.threat_level`). -/
def maxThreat (a b : ThreatLevel) : ThreatLevel :=
  if threatOrd b > threatOrd a then b else a

/-- The "L1 patterns: tag1, tag2, ..." clause appended to `reasons`
by `_compute_verdict` when `l1.matched_patterns` is non-empty. -/
def l1Clause (l1 : L1Result) : List Char :=
  chars "L1 patterns: " ++ joinSep (chars ", ") (l1.matched_patterns.take 5)

/-- The "L2 injection (conf=x.xx): reasoning" clause appended to `reasons`
by `_compute_verdict` when `l2.is_injection` holds. -/
def l2Clause (l2 : L2Result) : List Char :=
  chars "L2 injection (conf=" ++ fmt2 l2.confidence ++ chars "): " ++ l2.reasoning

/-- The `reason_str` computed by `_compute_verdict`: the `reasons` list is
built by two conditional appends, then joined with "; ", defaulting to
"Clean" when empty. -/
def verdictReason (l1 : L1Result) (l2 : L2Result) : List Char :=
  let reasons : List (List Char) :=
    (if l1.matched_patterns.isEmpty then [] else [l1Clause l1]) ++
    (if l2.is_injection then [l2Clause l2] else [])
  if reasons.isEmpty then chars "Clean" else joinSep (chars "; ") reasons

/-- The decision cascade of `_compute_verdict` (its sequence of `return`
statements; every return site pairs the verdict with the same `threat` and
`reason_str`, so the cascade is factored into the verdict alone). -/
def verdictDecision (l1 : L1Result) (l2 : L2Result) : Verdict :=
  let l1_ord := threatOrd l1.threat_level
  if l1_ord ≥ threatOrd ThreatLevel.critical then
    Verdict.block
  else if l1_ord ≥ threatOrd ThreatLevel.high then
    if l2.is_injection ∧ l2.confidence ≥ 7/10 then Verdict.block
    else Verdict.escalate
  else if l1_ord ≥ threatOrd ThreatLevel.medium then
    if l2.is_injection ∧ l2.confidence ≥ 8/10 then Verdict.block
    else if l2.is_injection then Verdict.escalate
    else Verdict.allow
  else if l2.is_injection ∧ l2.confidence ≥ 9/10 then Verdict.block
  else if l2.is_injection ∧ l2.confidence ≥ 7/10 then Verdict.escalate
  else Verdict.allow

/-- `interceptor._compute_verdict` — merge L1 + L2 results into a final
security verdict `(verdict, aggregated_threat_level, reason_string)`. -/
def computeVerdict (l1 : L1Result) (l2 : L2Result) : Verdict × ThreatLevel × List Char :=
  (verdictDecision l1 l2, maxThreat l1.threat_level l2.threat_level, verdictReason l1 l2)

/-- The specification's decision table (§4.5), written from the spec rows,
evaluated top-to-bottom with first match winning. -/
def specDecisionTable (l1 : ThreatLevel) (inj : Bool) (conf : ℚ) : Verdict :=
  if l1 = ThreatLevel.critical then Verdict.block
  else if l1 = ThreatLevel.high then
    if inj ∧ conf ≥ 7/10 then Verdict.block
    else if inj ∧ conf < 7/10 then Verdict.escalate
    else Verdict.escalate
  else if l1 = ThreatLevel.medium then
    if inj ∧ conf ≥ 8/10 then Verdict.block
    else if inj ∧ conf < 8/10 then Verdict.escalate
    else Verdict.allow
  else
    if inj ∧ conf ≥ 9/10 then Verdict.block
    else if inj ∧ conf ≥ 7/10 then Verdict.escalate
    else if inj ∧ conf < 7/10 then Verdict.allow
    else Verdict.allow

/-- C1: for every pair of analyzer results, `_compute_verdict` returns exactly
the verdict of the spec's decision table: CRITICAL always blocks; HIGH blocks
on an injection with confidence ≥ 0.70 and otherwise escalates; MEDIUM blocks
at ≥ 0.80, escalates on lower-confidence injections and allows otherwise;
LOW/NONE blocks at ≥ 0.90, escalates at ≥ 0.70, allows otherwise; every
threshold comparison uses the ≥ branch. -/
theorem compute_verdict_matches_decision_table (l1 : L1Result) (l2 : L2Result) :
    (computeVerdict l1 l2).1 =
      specDecisionTable l1.threat_level l2.is_injection l2.confidence := by
  show verdictDecision l1 l2 = _
  obtain ⟨pats, lvl⟩ := l1
  obtain ⟨inj, conf, reas, l2lvl⟩ := l2
  cases lvl <;> cases inj <;>
    simp only [verdictDecision, specDecisionTable, threatOrd, ge_iff_le, false_and,
      true_and, if_false, if_true, ite_self, decide_True, decide_False, Nat.le_refl] <;>
    split_ifs <;> first | rfl | tauto | linarith

/-- C7: the threat level returned by `_compute_verdict` (the one recorded in
the emitted AnalysisResult) is ≥ both `l1.threat_level` and `l2.threat_level`
under the ordering NONE < LOW < MEDIUM < HIGH < CRITICAL. -/
theorem compute_verdict_threat_ge_inputs (l1 : L1Result) (l2 : L2Result) :
    threatOrd l1.threat_level ≤ threatOrd (computeVerdict l1 l2).2.1 ∧
    threatOrd l2.threat_level ≤ threatOrd (computeVerdict l1 l2).2.1 := by
  show threatOrd _ ≤ threatOrd (maxThreat l1.threat_level l2.threat_level) ∧
    threatOrd _ ≤ threatOrd (maxThreat l1.threat_level l2.threat_level)
  unfold maxThreat
  split_ifs with h <;> omega

/-- The reason string exactly as claim C8 states it: up to five L1 pattern
tags and the L2 clause, all joined by "; ". -/
def claimedReasonC8 (l1 : L1Result) (l2 : L2Result) : List Char :=
  joinSep (chars "; ")
    (l1.matched_patterns.take 5 ++
      (if l2.is_injection then
        [chars "L2 injection (conf=" ++ fmt2 l2.confidence ++ chars "): " ++ l2.reasoning]
       else []))

/-- C8 counterexample: with one matched L1 pattern and no L2 injection the
code produces "L1 patterns: ac:rm -rf", not the bare tag concatenation the
claim describes. -/
theorem reason_format_counterexample :
    (computeVerdict ⟨[chars "ac:rm -rf"], ThreatLevel.high⟩ L2Result.mkDefault).2.2 ≠
      claimedReasonC8 ⟨[chars "ac:rm -rf"], ThreatLevel.high⟩ L2Result.mkDefault := by
  decide

/-- C8 (amended): the reason string is "Clean" when there are no L1 tags and
no L2 injection; otherwise it joins with "; " an optional L1 clause of the
form "L1 patterns: " followed by up to five tags joined by ", " (present
exactly when some pattern matched) and, exactly when `is_injection`, a clause
"L2 injection (conf=x.xx): reasoning" with the confidence rendered to two
decimals. -/
theorem reason_format_amended (l1 : L1Result) (l2 : L2Result) :
    (computeVerdict l1 l2).2.2 =
      if l1.matched_patterns.isEmpty ∧ l2.is_injection = false then chars "Clean"
      else
        joinSep (chars "; ")
          ((if l1.matched_patterns.isEmpty then [] else [l1Clause l1]) ++
           (if l2.is_injection then [l2Clause l2] else [])) := by
  show verdictReason l1 l2 = _
  unfold verdictReason
  cases hp : l1.matched_patterns.isEmpty <;> cases hi : l2.is_injection <;>
    simp [hp, hi, joinSep]

/-- JSON values as produced by `orjson.loads`.  Object fields keep insertion
order, as Python dicts do.  Numbers are restricted to integers: no claim
involves float-valued payload members. -/
inductive Json
  | null
  | bool (b : Bool)
  | num (n : Int)
  | str (s : List Char)
  | arr (elems : List Json)
  | obj (fields : List (List Char × Json))

/-- Decimal digits of an integer, with a leading minus sign when negative. -/
def intToChars (n : Int) : List Char :=
  if n < 0 then Char.ofNat 45 :: natToChars n.natAbs else natToChars n.natAbs

/-- Hexadecimal digit character (lowercase). -/
def hexDigitChar (n : Nat) : Char :=
  if n < 10 then Char.ofNat (48 + n) else Char.ofNat (87 + n)

/-- Two lowercase hex digits of a byte. -/
def hexByte (n : Nat) : List Char := [hexDigitChar (n / 16 % 16), hexDigitChar (n % 16)]

/-- One character of Python `repr` of a string, escaped for quote char `q`. -/
def pyReprEscape (q : Char) (c : Char) : List Char :=
  if c = Char.ofNat 92 then [Char.ofNat 92, Char.ofNat 92]
  else if c = q then [Char.ofNat 92, q]
  else if c = Char.ofNat 10 then [Char.ofNat 92, Char.ofNat 110]
  else if c = Char.ofNat 13 then [Char.ofNat 92, Char.ofNat 114]
  else if c = Char.ofNat 9 then [Char.ofNat 92, Char.ofNat 116]
  else if c.toNat < 32 ∨ c.toNat = 127 then
    [Char.ofNat 92, Char.ofNat 120] ++ hexByte c.toNat
  else [c]

/-- Python `repr` of a string: single quotes, switching to double quotes when
the text contains a single quote but no double quote. -/
def pyReprStr (s : List Char) : List Char :=
  let q := if s.contains (Char.ofNat 39) ∧ ¬ s.contains (Char.ofNat 34)
    then Char.ofNat 34 else Char.ofNat 39
  q :: (s.flatMap (pyReprEscape q)) ++ [q]

/-- Python `str()` of an `orjson.loads` result, as used for the 200-char
`params_preview` (`str(request.params)[:200]`). -/
def pyStr : Json → List Char
  | Json.null => chars "None"
  | Json.bool true => chars "True"
  | Json.bool false => chars "False"
  | Json.num n => intToChars n
  | Json.str s => pyReprStr s
  | Json.arr xs =>
      Char.ofNat 91 ::
        joinSep (chars ", ") (xs.attach.map (fun x => pyStr x.1)) ++ [Char.ofNat 93]
  | Json.obj kvs =>
      Char.ofNat 123 ::
        joinSep (chars ", ")
          (kvs.attach.map (fun kv => pyReprStr kv.1.1 ++ chars ": " ++ pyStr kv.1.2)) ++
        [Char.ofNat 125]
termination_by j => sizeOf j
decreasing_by
  · have := List.sizeOf_lt_of_mem x.2
    simp only [Json.arr.sizeOf_spec]
    omega
  · obtain ⟨⟨k, v⟩, hmem⟩ := kv
    have h1 := List.sizeOf_lt_of_mem hmem
    simp only [Json.obj.sizeOf_spec, Prod.mk.sizeOf_spec] at h1 ⊢
    omega

/-- One character of an orjson JSON string, escaped. -/
def jsonEscape (c : Char) : List Char :=
  if c = Char.ofNat 34 then [Char.ofNat 92, Char.ofNat 34]
  else if c = Char.ofNat 92 then [Char.ofNat 92, Char.ofNat 92]
  else if c = Char.ofNat 10 then [Char.ofNat 92, Char.ofNat 110]
  else if c = Char.ofNat 13 then [Char.ofNat 92, Char.ofNat 114]
  else if c = Char.ofNat 9 then [Char.ofNat 92, Char.ofNat 116]
  else if c = Char.ofNat 8 then [Char.ofNat 92, Char.ofNat 98]
  else if c = Char.ofNat 12 then [Char.ofNat 92, Char.ofNat 102]
  else if c.toNat < 32 then [Char.ofNat 92, Char.ofNat 117, Char.ofNat 48, Char.ofNat 48] ++
    hexByte c.toNat
  else [c]

/-- `orjson.dumps` — compact JSON serialization (separators "," and ":"). -/
def jsonDumps : Json → List Char
  | Json.null => chars "null"
  | Json.bool true => chars "true"
  | Json.bool false => chars "false"
  | Json.num n => intToChars n
  | Json.str s => Char.ofNat 34 :: s.flatMap jsonEscape ++ [Char.ofNat 34]
  | Json.arr xs =>
      Char.ofNat 91 ::
        joinSep (chars ",") (xs.attach.map (fun x => jsonDumps x.1)) ++ [Char.ofNat 93]
  | Json.obj kvs =>
      Char.ofNat 123 ::
        joinSep (chars ",")
          (kvs.attach.map (fun kv =>
            Char.ofNat 34 :: kv.1.1.flatMap jsonEscape ++ [Char.ofNat 34] ++
              (Char.ofNat 58 :: jsonDumps kv.1.2))) ++
        [Char.ofNat 125]
termination_by j => sizeOf j
decreasing_by
  · have := List.sizeOf_lt_of_mem x.2
    simp only [Json.arr.sizeOf_spec]
    omega
  · obtain ⟨⟨k, v⟩, hmem⟩ := kv
    have h1 := List.sizeOf_lt_of_mem hmem
    simp only [Json.obj.sizeOf_spec, Prod.mk.sizeOf_spec] at h1 ⊢
    omega

/-- One entry of `SessionContext.messages`.  The source stores
`{"role": role, "content": content, "ts": time.time()}`; the wall-clock
`ts` member is not modelled. -/
structure Msg where
  role : List Char
  content : Json

/-- `models.SessionContext` — the per-agent conversational ring buffer.
`session_id`, `agent_id`, `created_at` and `last_active` are carried by the
source for identification and TTL sweeping only; the claims concern
`messages` and `max_messages`. -/
structure SessionContext where
  messages : List Msg
  max_messages : Int

/-- Python `l[start:]` slicing: a negative start counts from the end,
clamped at zero; in particular `l[-0:] = l[0:] = l`. -/
def pySliceFrom (start : Int) (l : List α) : List α :=
  if 0 ≤ start then l.drop start.toNat
  else l.drop ((l.length : Int) + start).toNat

/-- `SessionContext.push_message` — append a message, evicting the oldest
via `self.messages[-self.max_messages:]` when the buffer overflows. -/
def SessionContext.push_message (s : SessionContext) (role : List Char) (content : Json) :
    SessionContext :=
  let msgs := s.messages ++ [{ role := role, content := content }]
  let msgs := if (msgs.length : Int) > s.max_messages then pySliceFrom (-s.max_messages) msgs
    else msgs
  { s with messages := msgs }

/-- A sequence of `push_message` calls, applied in order. -/
def pushAll (s : SessionContext) (ps : List (List Char × Json)) : SessionContext :=
  ps.foldl (fun acc rc => acc.push_message rc.1 rc.2) s

/-- C6 counterexample: a session whose `max_messages` is 0 — a value the
model accepts — grows beyond `max_messages` on the very first push, because
the Python slice `messages[-0:]` keeps the whole list. -/
theorem session_buffer_bound_counterexample :
    ¬ ((((({ messages := [], max_messages := 0 } : SessionContext).push_message
        (chars "agent") Json.null).messages.length : Int) ≤
          ({ messages := [], max_messages := 0 } : SessionContext).max_messages)) := by
  decide

/-- `push_message` never changes `max_messages`. -/
theorem push_message_max (s : SessionContext) (role : List Char) (content : Json) :
    (s.push_message role content).max_messages = s.max_messages := rfl

/-- A single push keeps the buffer within `max_messages`, provided
`max_messages` is positive. -/
theorem push_message_length_le (s : SessionContext) (role : List Char) (content : Json)
    (hmax : 1 ≤ s.max_messages) :
    ((s.push_message role content).messages.length : Int) ≤ s.max_messages := by
  unfold SessionContext.push_message pySliceFrom
  dsimp only
  split_ifs with h1 h2
  · omega
  · rw [List.length_drop]
    simp only [List.length_append, List.length_cons, List.length_nil] at h1 ⊢
    omega
  · simp only [List.length_append, List.length_cons, List.length_nil] at h1 ⊢
    omega

/-- C6 (amended): provided `max_messages ≥ 1` and the buffer does not
already exceed it, the buffer length stays at most `max_messages` after
every sequence of `push_message` calls. -/
theorem session_buffer_bound_amended (s : SessionContext) (ps : List (List Char × Json))
    (hmax : 1 ≤ s.max_messages) (hinit : (s.messages.length : Int) ≤ s.max_messages) :
    ((pushAll s ps).messages.length : Int) ≤ s.max_messages := by
  induction ps generalizing s with
  | nil => exact hinit
  | cons p ps ih =>
      have hstep := push_message_length_le s p.1 p.2 hmax
      have hm := push_message_max s p.1 p.2
      have := ih (s.push_message p.1 p.2) (by rw [hm]; exact hmax) (by rw [hm]; exact hstep)
      rw [hm] at this
      exact this

/-- C6 witness: three pushes into an initially empty two-slot buffer stay
within the bound. -/
theorem session_buffer_bound_witness :
    ((SessionContext.messages (pushAll { messages := [], max_messages := 2 }
        [(chars "agent", Json.null), (chars "agent", Json.null),
          (chars "agent", Json.null)])).length : Int) ≤ 2 :=
  session_buffer_bound_amended _ _ (by decide) (by decide)

/-- `AnalysisResult.request_id` default factory: `uuid.uuid4().hex[:12]`.
The argument stands for the `hex` form of the freshly generated UUID —
a 32-character lowercase hexadecimal string. -/
def mkRequestId (uuidHex : List Char) : List Char := uuidHex.take 12

/-- Lowercase hexadecimal digit. -/
def isLowerHexDigit (c : Char) : Bool :=
  (Char.ofNat 48 ≤ c ∧ c ≤ Char.ofNat 57) ∨ (Char.ofNat 97 ≤ c ∧ c ≤ Char.ofNat 102)

/-- C9 counterexample: at a well-formed 32-hex-digit UUID, the generated
request id has length 12, not 16 as claimed. -/
theorem request_id_16_hex_counterexample :
    (chars "00112233445566778899aabbccddeeff").length = 32 ∧
    (∀ c ∈ chars "00112233445566778899aabbccddeeff", isLowerHexDigit c) ∧
    (mkRequestId (chars "00112233445566778899aabbccddeeff")).length ≠ 16 := by
  decide

/-- C9 (amended): every request id generated from a UUID hex string is a
12-character lowercase hexadecimal string. -/
theorem request_id_is_12_hex (u : List Char) (h32 : u.length = 32)
    (hhex : ∀ c ∈ u, isLowerHexDigit c) :
    (mkRequestId u).length = 12 ∧ ∀ c ∈ mkRequestId u, isLowerHexDigit c := by
  refine ⟨?_, fun c hc => hhex c (List.take_subset _ _ hc)⟩
  simp [mkRequestId, List.length_take, h32]

/-- C9 witness: the amended statement at a concrete UUID. -/
theorem request_id_is_12_hex_witness :
    (mkRequestId (chars "0123456789abcdef0123456789abcdef")).length = 12 ∧
    ∀ c ∈ mkRequestId (chars "0123456789abcdef0123456789abcdef"), isLowerHexDigit c :=
  request_id_is_12_hex _ (by decide) (by decide)

/-- Effect of one iteration of `DashboardHub._client_receiver` on a parsed
operator frame `{action, request_id}`: `_pending_escalations` is an
association list with unique keys (a Python dict) mapping a request id to
its future, each future represented by its `done()` flag; `resolved`
records the `set_result` call, if any. -/
structure ReceiverStep where
  resolved : Option (List Char × Verdict)
  pending : List (List Char × Bool)
deriving DecidableEq, Repr

/-- `DashboardHub._client_receiver`, one message: guarded by the truthiness
of `action` and `request_id` and by membership in `_pending_escalations`;
`pop` removes the entry, and `set_result` fires only when the future is not
yet done.  The verdict is BLOCK exactly for `action == "block"`; any other
(truthy) action resolves as ALLOW. -/
def clientReceiverStep (pending : List (List Char × Bool))
    (action request_id : List Char) : ReceiverStep :=
  if action ≠ [] ∧ request_id ≠ [] ∧
      (pending.find? (fun e => e.1 == request_id)).isSome then
    let verdict := if action = chars "block" then Verdict.block else Verdict.allow
    let fut := ((pending.find? (fun e => e.1 == request_id)).map (fun e => e.2)).getD true
    { resolved := if fut then Option.none else some (request_id, verdict),
      pending := pending.filter (fun e => ¬ e.1 == request_id) }
  else { resolved := Option.none, pending := pending }

/-- C10 counterexample: a pending escalation keyed by the empty request id
is matched by a frame with a non-empty action, yet nothing is resolved and
the entry stays, because the receiver also requires the request id itself
to be truthy. -/
theorem operator_command_counterexample :
    (clientReceiverStep [([], false)] (chars "block") []).resolved = Option.none ∧
    (clientReceiverStep [([], false)] (chars "block") []).pending = [([], false)] := by
  decide

/-- C10 (amended): for a frame whose non-empty request id matches a pending,
unresolved escalation and whose action is non-empty, the promise is resolved
with BLOCK exactly when the action equals "block" (any other non-empty
action resolves ALLOW), and the entry is removed so that a later command
for the same request id has no effect. -/
theorem operator_command_resolution (pending : List (List Char × Bool))
    (action rid : List Char) (ha : action ≠ []) (hr : rid ≠ [])
    (hp : pending.find? (fun e => e.1 == rid) = some (rid, false)) :
    (clientReceiverStep pending action rid).resolved =
      some (rid, if action = chars "block" then Verdict.block else Verdict.allow) ∧
    ((clientReceiverStep pending action rid).resolved = some (rid, Verdict.block) ↔
      action = chars "block") ∧
    (∀ action2,
      (clientReceiverStep (clientReceiverStep pending action rid).pending action2 rid).resolved =
        Option.none ∧
      (clientReceiverStep (clientReceiverStep pending action rid).pending action2 rid).pending =
        (clientReceiverStep pending action rid).pending) := by
  have hfind : (pending.find? (fun e => e.1 == rid)).isSome := by rw [hp]; rfl
  have hstep : clientReceiverStep pending action rid =
      { resolved := some (rid, if action = chars "block" then Verdict.block else Verdict.allow),
        pending := pending.filter (fun e => ¬ e.1 == rid) } := by
    unfold clientReceiverStep
    rw [if_pos ⟨ha, hr, hfind⟩, hp]
    rfl
  have hgone : ((pending.filter (fun e => ¬ e.1 == rid)).find?
      (fun e => e.1 == rid)) = Option.none := by
    rw [List.find?_eq_none]
    intro e he
    have := List.of_mem_filter he
    simpa using this
  refine ⟨by rw [hstep], ?_, ?_⟩
  · rw [hstep]
    by_cases hb : action = chars "block" <;> simp [hb]
  · intro action2
    rw [hstep]
    unfold clientReceiverStep
    rw [if_neg]
    · exact ⟨rfl, rfl⟩
    · rintro ⟨-, -, hsome⟩
      rw [hgone] at hsome
      simp at hsome

/-- C10 witness: action "deny" (neither "block" nor "allow") resolves the
matching escalation as ALLOW, and a repeated command is a no-op. -/
theorem operator_command_resolution_witness :
    (clientReceiverStep [(chars "abc", false)] (chars "deny") (chars "abc")).resolved =
      some (chars "abc",
        if chars "deny" = chars "block" then Verdict.block else Verdict.allow) ∧
    ((clientReceiverStep [(chars "abc", false)] (chars "deny") (chars "abc")).resolved =
      some (chars "abc", Verdict.block) ↔ chars "deny" = chars "block") ∧
    (∀ action2,
      (clientReceiverStep
        (clientReceiverStep [(chars "abc", false)] (chars "deny") (chars "abc")).pending
        action2 (chars "abc")).resolved = Option.none ∧
      (clientReceiverStep
        (clientReceiverStep [(chars "abc", false)] (chars "deny") (chars "abc")).pending
        action2 (chars "abc")).pending =
        (clientReceiverStep [(chars "abc", false)] (chars "deny") (chars "abc")).pending) :=
  operator_command_resolution _ _ _ (by decide) (by decide) (by decide)

/-- Base-64 alphabet character class `[A-Za-z0-9+/]`. -/
def isB64Char (c : Char) : Bool :=
  decide ((65 ≤ c.toNat ∧ c.toNat ≤ 90) ∨ (97 ≤ c.toNat ∧ c.toNat ≤ 122) ∨
    (48 ≤ c.toNat ∧ c.toNat ≤ 57) ∨ c.toNat = 43 ∨ c.toNat = 47)

/-- State of the one-pass scanner implementing `re.finditer` of the
heuristic-decode pattern `[A-Za-z0-9+/]{20,}={0,2}`: outside any candidate
run; inside an alphabet run (accumulated reversed); or consuming up to two
trailing padding `=` after a run of length ≥ 20 (`budget` pads remain). -/
inductive ScanState
  | idle
  | run (acc : List Char)
  | pad (blob : List Char) (budget : Nat)

/-- One-pass scan for `[A-Za-z0-9+/]{20,}={0,2}`: emits the leftmost
non-overlapping matches, each a maximal alphabet run of at least 20
characters plus up to two trailing pads, resuming after each match —
exactly the candidates over which `_check_base64_payloads` iterates. -/
def b64ScanGo : List Char → ScanState → List (List Char)
  | [], ScanState.idle => []
  | [], ScanState.run acc => if 20 ≤ acc.length then [acc.reverse] else []
  | [], ScanState.pad blob _ => [blob.reverse]
  | c :: cs, ScanState.idle =>
      if isB64Char c then b64ScanGo cs (ScanState.run [c])
      else b64ScanGo cs ScanState.idle
  | c :: cs, ScanState.run acc =>
      if isB64Char c then b64ScanGo cs (ScanState.run (c :: acc))
      else if 20 ≤ acc.length then
        if c.toNat = 61 then b64ScanGo cs (ScanState.pad (c :: acc) 1)
        else acc.reverse :: b64ScanGo cs ScanState.idle
      else b64ScanGo cs ScanState.idle
  | c :: cs, ScanState.pad blob budget =>
      if c.toNat = 61 ∧ 1 ≤ budget then b64ScanGo cs (ScanState.pad (c :: blob) (budget - 1))
      else if isB64Char c then blob.reverse :: b64ScanGo cs (ScanState.run [c])
      else blob.reverse :: b64ScanGo cs ScanState.idle

/-- The scanner, started outside any run. -/
def b64Scan (l : List Char) : List (List Char) := b64ScanGo l ScanState.idle

/-- Value of a base-64 alphabet character. -/
def b64CharVal (c : Char) : Option Nat :=
  if 65 ≤ c.toNat ∧ c.toNat ≤ 90 then some (c.toNat - 65)
  else if 97 ≤ c.toNat ∧ c.toNat ≤ 122 then some (c.toNat - 97 + 26)
  else if 48 ≤ c.toNat ∧ c.toNat ≤ 57 then some (c.toNat - 48 + 52)
  else if c.toNat = 43 then some 62
  else if c.toNat = 47 then some 63
  else Option.none

/-- `binascii.a2b_base64` in non-strict mode (the decoder behind
`base64.b64decode`): alphabet characters accumulate into quads, emitting a
byte at each of the second, third and fourth position; characters outside
the alphabet are skipped; a padding `=` at quad position ≥ 2 that brings
the quad to four ends decoding successfully (excess input ignored), other
pads are skipped; ending inside an unpadded quad is an error.
Arguments: remaining input, quad position, carried bits, pads seen,
output bytes (reversed). -/
def a2bBase64 : List Char → Nat → Nat → Nat → List Nat → Option (List Nat)
  | [], qp, _, _, out => if qp = 0 then some out.reverse else Option.none
  | c :: cs, qp, lc, pads, out =>
    if c.toNat = 61 then
      if 2 ≤ qp ∧ 4 ≤ qp + (pads + 1) then some out.reverse
      else a2bBase64 cs qp lc (pads + 1) out
    else
      match b64CharVal c with
      | Option.none => a2bBase64 cs qp lc pads out
      | some v =>
        match qp with
        | 0 => a2bBase64 cs 1 v 0 out
        | 1 => a2bBase64 cs 2 (v % 16) 0 ((lc * 4 + v / 16) :: out)
        | 2 => a2bBase64 cs 3 (v % 4) 0 ((lc * 16 + v / 4) :: out)
        | _ => a2bBase64 cs 0 0 0 ((lc * 64 + v) :: out)

/-- `base64.b64decode(blob)`: the raw bytes, or `none` on `binascii.Error`. -/
def b64decode (blob : List Char) : Option (List Nat) := a2bBase64 blob 0 0 0 []

/-- UTF-8 continuation byte. -/
def isCont (b : Nat) : Bool := decide (128 ≤ b ∧ b ≤ 191)

/-- Worker for `utf8DecodeIgnore`; the fuel argument (initialized to the
input length, enough for a decoder that always consumes at least one byte
per step) only makes the recursion structural. -/
def utf8DecodeIgnoreGo : Nat → List Nat → List Char
  | 0, _ => []
  | _, [] => []
  | fuel + 1, b :: bs =>
    if b < 128 then Char.ofNat b :: utf8DecodeIgnoreGo fuel bs
    else if 194 ≤ b ∧ b ≤ 223 then
      match bs with
      | [] => []
      | b1 :: rest =>
        if isCont b1 then
          Char.ofNat ((b - 192) * 64 + (b1 - 128)) :: utf8DecodeIgnoreGo fuel rest
        else utf8DecodeIgnoreGo fuel (b1 :: rest)
    else if 224 ≤ b ∧ b ≤ 239 then
      match bs with
      | [] => []
      | b1 :: bs1 =>
        if (if b = 224 then 160 else 128) ≤ b1 ∧ b1 ≤ (if b = 237 then 159 else 191) then
          match bs1 with
          | [] => []
          | b2 :: rest =>
            if isCont b2 then
              Char.ofNat ((b - 224) * 4096 + (b1 - 128) * 64 + (b2 - 128)) ::
                utf8DecodeIgnoreGo fuel rest
            else utf8DecodeIgnoreGo fuel (b2 :: rest)
        else utf8DecodeIgnoreGo fuel (b1 :: bs1)
    else if 240 ≤ b ∧ b ≤ 244 then
      match bs with
      | [] => []
      | b1 :: bs1 =>
        if (if b = 240 then 144 else 128) ≤ b1 ∧ b1 ≤ (if b = 244 then 143 else 191) then
          match bs1 with
          | [] => []
          | b2 :: bs2 =>
            if isCont b2 then
              match bs2 with
              | [] => []
              | b3 :: rest =>
                if isCont b3 then
                  Char.ofNat ((b - 240) * 262144 + (b1 - 128) * 4096 +
                    (b2 - 128) * 64 + (b3 - 128)) :: utf8DecodeIgnoreGo fuel rest
                else utf8DecodeIgnoreGo fuel (b3 :: rest)
            else utf8DecodeIgnoreGo fuel (b2 :: bs2)
        else utf8DecodeIgnoreGo fuel (b1 :: bs1)
    else utf8DecodeIgnoreGo fuel bs

/-- `bytes.decode("utf-8", errors="ignore")`: strict UTF-8 decoding where an
invalid sequence is dropped — the maximal valid subpart (start byte plus
valid continuations) is consumed and skipped, resuming at the offending
byte; a truncated final sequence is dropped. -/
def utf8DecodeIgnore (l : List Nat) : List Char := utf8DecodeIgnoreGo l.length l

/-- Python substring test `needle in haystack`. -/
def substringOf (needle : List Char) : List Char → Bool
  | [] => needle.isEmpty
  | b :: bs => needle.isPrefixOf (b :: bs) || substringOf needle bs

/-- `AhoCorasickMatcher.find_all`, the pure-Python fallback scan used when
the `ahocorasick_rs` extension is unavailable:
`[p for p in patterns if p.lower() in text.lower()]`
(the configured patterns are ASCII; lowering is per character). -/
def findAll (patterns : List (List Char)) (text : List Char) : List (List Char) :=
  patterns.filter (fun p => substringOf (p.map Char.toLower) (text.map Char.toLower))

/-- `static_analyzer.StaticAnalyzer`: the blocked-command dictionary (a
Python set, kept here as a list in configuration order — set iteration
order is unspecified and no claim depends on it), and the compiled regex
battery, modelled as the function mapping a payload to the
(name, severity) pairs of the battery entries matching it. -/
structure StaticAnalyzer where
  blocked_commands : List (List Char)
  regexHits : List Char → List (List Char × ThreatLevel)

/-- `StaticAnalyzer._check_base64_payloads` — decode each base-64-shaped
run and re-scan the decoded content against the dictionary matcher only
(no structural detectors, no further decoding); true iff some decoded run
contains a dictionary pattern. -/
def StaticAnalyzer.check_base64_payloads (sa : StaticAnalyzer) (text : List Char) : Bool :=
  (b64Scan text).any (fun blob =>
    match b64decode blob with
    | some bs => !(findAll sa.blocked_commands (utf8DecodeIgnore bs)).isEmpty
    | Option.none => false)

/-- `StaticAnalyzer.analyze` — dictionary scan, regex battery, base-64
heuristic decode, threat aggregation. -/
def StaticAnalyzer.analyze (sa : StaticAnalyzer) (payload : List Char) : L1Result :=
  let ac_hits := findAll sa.blocked_commands payload
  let pats1 := if ac_hits.isEmpty then [] else ac_hits.map (fun h => chars "ac:" ++ h)
  let lvl1 := if ac_hits.isEmpty then ThreatLevel.none else ThreatLevel.high
  let rhits := sa.regexHits payload
  let pats2 := pats1 ++ rhits.map (fun nh => chars "regex:" ++ nh.1)
  let highest := rhits.foldl (fun h nl => if threatOrd nl.2 > threatOrd h then nl.2 else h) lvl1
  let b64_threat := sa.check_base64_payloads payload
  let pats3 := pats2 ++ (if b64_threat then [chars "heuristic:base64_decoded_threat"] else [])
  let highest2 := if b64_threat ∧ threatOrd ThreatLevel.high > threatOrd highest
    then ThreatLevel.high else highest
  { matched_patterns := pats3, threat_level := highest2 }

/-- `config.FirewallConfig.blocked_commands` — the default literals. -/
def defaultBlockedCommands : List (List Char) :=
  [chars "rm -rf", chars "/etc/shadow", chars "/etc/passwd", chars "DROP TABLE",
   chars "DELETE FROM", chars "TRUNCATE", chars "shutdown", chars "mkfs",
   chars "dd if=", chars "FORMAT C:", chars "wget|sh", chars "curl|bash"]

/-- `takeWhile` keeps everything when every member satisfies the predicate. -/
theorem takeWhile_all_pos (p : α → Bool) (l : List α) (h : ∀ a ∈ l, p a) :
    l.takeWhile p = l := by
  induction l with
  | nil => rfl
  | cons a l ih =>
      rw [List.takeWhile_cons_of_pos (h a (List.mem_cons_self a l))]
      rw [ih (fun b hb => h b (List.mem_cons_of_mem a hb))]

/-- `takeWhile` of a list all of whose members fail the predicate. -/
theorem takeWhile_nil_of_all_neg (p : α → Bool) (l : List α) (h : ∀ c ∈ l, ¬ p c) :
    l.takeWhile p = [] := by
  cases l with
  | nil => rfl
  | cons a l => exact List.takeWhile_cons_of_neg (h a (List.mem_cons_self a l))

/-- Appending on the right cannot shorten a `takeWhile` prefix. -/
theorem takeWhile_length_le_append (p : α → Bool) (xs ys : List α) :
    (xs.takeWhile p).length ≤ ((xs ++ ys).takeWhile p).length := by
  induction xs with
  | nil => simp
  | cons a xs ih =>
      by_cases ha : p a
      · rw [List.cons_append, List.takeWhile_cons_of_pos ha,
          List.takeWhile_cons_of_pos ha]
        simpa using ih
      · rw [List.takeWhile_cons_of_neg ha]
        simp

/-- Invariant carried by the scanner states: a run accumulator holds only
alphabet characters; a padding blob starts (once reversed) with an
alphabet run of at least 20 characters. -/
def ScanState.ok : ScanState → Prop
  | ScanState.idle => True
  | ScanState.run acc => ∀ a ∈ acc, isB64Char a
  | ScanState.pad blob _ => 20 ≤ (blob.reverse.takeWhile isB64Char).length

/-- Every blob emitted from a well-formed state starts with an alphabet
run of at least 20 characters. -/
theorem b64ScanGo_min_run (l : List Char) : ∀ st, st.ok →
    ∀ blob ∈ b64ScanGo l st, 20 ≤ (blob.takeWhile isB64Char).length := by
  induction l with
  | nil =>
      intro st hst blob hb
      cases st with
      | idle => simp [b64ScanGo] at hb
      | run acc =>
          rw [b64ScanGo] at hb
          split_ifs at hb with hlen
          · rcases List.mem_singleton.mp hb with rfl
            have hall : ∀ a ∈ acc.reverse, isB64Char a := by
              intro a ha; exact hst a (List.mem_reverse.mp ha)
            rw [takeWhile_all_pos _ _ hall, List.length_reverse]
            exact hlen
          · simp at hb
      | pad blob2 budget =>
          rw [b64ScanGo] at hb
          rcases List.mem_singleton.mp hb with rfl
          exact hst
  | cons c cs ih =>
      intro st hst blob hb
      cases st with
      | idle =>
          rw [b64ScanGo] at hb
          split_ifs at hb with hc
          · exact ih (ScanState.run [c]) (by intro a ha; simpa using (List.mem_singleton.mp ha) ▸ hc) blob hb
          · exact ih ScanState.idle trivial blob hb
      | run acc =>
          rw [b64ScanGo] at hb
          split_ifs at hb with hc hlen hpad
          · refine ih (ScanState.run (c :: acc)) ?_ blob hb
            intro a ha
            rcases List.mem_cons.mp ha with rfl | ha
            · exact hc
            · exact hst a ha
          · refine ih (ScanState.pad (c :: acc) 1) ?_ blob hb
            show 20 ≤ ((c :: acc).reverse.takeWhile isB64Char).length
            rw [List.reverse_cons]
            calc 20 ≤ (acc.reverse.takeWhile isB64Char).length := by
                  have hall : ∀ a ∈ acc.reverse, isB64Char a :=
                    fun a ha => hst a (List.mem_reverse.mp ha)
                  rw [takeWhile_all_pos _ _ hall, List.length_reverse]
                  exact hlen
              _ ≤ ((acc.reverse ++ [c]).takeWhile isB64Char).length :=
                  takeWhile_length_le_append _ _ _
          · rcases List.mem_cons.mp hb with rfl | hb
            · have hall : ∀ a ∈ acc.reverse, isB64Char a :=
                fun a ha => hst a (List.mem_reverse.mp ha)
              rw [takeWhile_all_pos _ _ hall, List.length_reverse]
              exact hlen
            · exact ih ScanState.idle trivial blob hb
          · exact ih ScanState.idle trivial blob hb
      | pad blob2 budget =>
          rw [b64ScanGo] at hb
          split_ifs at hb with hpad hc
          · refine ih (ScanState.pad (c :: blob2) (budget - 1)) ?_ blob hb
            show 20 ≤ ((c :: blob2).reverse.takeWhile isB64Char).length
            rw [List.reverse_cons]
            exact le_trans hst (takeWhile_length_le_append _ _ _)
          · rcases List.mem_cons.mp hb with rfl | hb
            · exact hst
            · exact ih (ScanState.run [c]) (by intro a ha; simpa using (List.mem_singleton.mp ha) ▸ hc) blob hb
          · rcases List.mem_cons.mp hb with rfl | hb
            · exact hst
            · exact ih ScanState.idle trivial blob hb

/-- A text with no alphabet characters contains no scanner match. -/
theorem b64Scan_nil (l : List Char) (h : ∀ c ∈ l, ¬ isB64Char c) : b64Scan l = [] := by
  unfold b64Scan
  induction l with
  | nil => rfl
  | cons c cs ih =>
      rw [b64ScanGo, if_neg (h c (List.mem_cons_self c cs))]
      exact ih (fun d hd => h d (List.mem_cons_of_mem c hd))

/-- Consuming alphabet characters in run state accumulates them. -/
theorem b64ScanGo_run_consume (rs : List Char) (tail acc : List Char)
    (h : ∀ a ∈ rs, isB64Char a) :
    b64ScanGo (rs ++ tail) (ScanState.run acc) =
      b64ScanGo tail (ScanState.run (rs.reverse ++ acc)) := by
  induction rs generalizing acc with
  | nil => simp
  | cons r rs ih =>
      rw [List.cons_append, b64ScanGo, if_pos (h r (List.mem_cons_self r rs))]
      rw [ih (r :: acc) (fun a ha => h a (List.mem_cons_of_mem r ha))]
      simp

/-- A maximal alphabet run of length ≥ 20, delimited by non-run characters
(none of which is a padding `=` on the right), is returned by the scanner
exactly as it stands. -/
theorem b64Scan_exact (pre run post : List Char)
    (hpre : ∀ c ∈ pre, ¬ isB64Char c)
    (hlen : 20 ≤ run.length) (hrun : ∀ c ∈ run, isB64Char c)
    (hpost : ∀ c ∈ post, ¬ isB64Char c ∧ ¬ c.toNat = 61) :
    b64Scan (pre ++ run ++ post) = [run] := by
  unfold b64Scan
  induction pre with
  | cons p pre ih =>
      rw [List.cons_append, List.cons_append, b64ScanGo,
        if_neg (hpre p (List.mem_cons_self p pre))]
      exact ih (fun d hd => hpre d (List.mem_cons_of_mem p hd))
  | nil =>
      simp only [List.nil_append]
      cases run with
      | nil => simp at hlen
      | cons c rs =>
          have hc : isB64Char c = true := hrun c (List.mem_cons_self c rs)
          have hrs : ∀ a ∈ rs, isB64Char a = true :=
            fun a ha => hrun a (List.mem_cons_of_mem c ha)
          rw [show ((c :: rs) ++ post : List Char) = c :: (rs ++ post) from rfl,
            b64ScanGo, if_pos hc, b64ScanGo_run_consume rs post [c] hrs]
          have hacc : (rs.reverse ++ [c]).length = rs.length + 1 := by simp
          have haccrev : (rs.reverse ++ [c]).reverse = c :: rs := by simp
          have hlen2 : 20 ≤ (rs.reverse ++ [c]).length := by
            rw [hacc]; simpa using hlen
          cases post with
          | nil =>
              rw [b64ScanGo, if_pos hlen2, haccrev]
          | cons q qs =>
              have hq := hpost q (List.mem_cons_self q qs)
              rw [b64ScanGo, if_neg (by simpa using hq.1), if_pos hlen2,
                if_neg hq.2, haccrev]
              have : b64ScanGo qs ScanState.idle = [] := by
                have := b64Scan_nil qs
                  (fun d hd => (hpost d (List.mem_cons_of_mem q hd)).1)
                simpa [b64Scan] using this
              rw [this]

/-- `_check_base64_payloads` is true exactly when some scanned blob decodes
successfully and its decoded content contains a dictionary pattern. -/
theorem check_base64_iff (sa : StaticAnalyzer) (text : List Char) :
    sa.check_base64_payloads text = true ↔
      ∃ blob ∈ b64Scan text, ∃ bs, b64decode blob = some bs ∧
        findAll sa.blocked_commands (utf8DecodeIgnore bs) ≠ [] := by
  unfold StaticAnalyzer.check_base64_payloads
  rw [List.any_eq_true]
  constructor
  · rintro ⟨blob, hmem, hpred⟩
    refine ⟨blob, hmem, ?_⟩
    cases hdec : b64decode blob with
    | none =>
        rw [hdec] at hpred
        have hpred2 : (false : Bool) = true := hpred
        exact absurd hpred2 Bool.false_ne_true
    | some bs =>
        rw [hdec] at hpred
        have hpred2 : (!(findAll sa.blocked_commands (utf8DecodeIgnore bs)).isEmpty) = true :=
          hpred
        refine ⟨bs, rfl, ?_⟩
        intro hnil
        rw [hnil] at hpred2
        simp at hpred2
  · rintro ⟨blob, hmem, bs, hdec, hne⟩
    refine ⟨blob, hmem, ?_⟩
    rw [hdec]
    have hfalse : (findAll sa.blocked_commands (utf8DecodeIgnore bs)).isEmpty = false := by
      cases hfa : findAll sa.blocked_commands (utf8DecodeIgnore bs) with
      | nil => exact absurd hfa hne
      | cons x xs => rfl
    show (!(findAll sa.blocked_commands (utf8DecodeIgnore bs)).isEmpty) = true
    rw [hfalse]
    rfl

/-- The final aggregation step never lowers the level below HIGH once the
heuristic fired. -/
theorem high_le_ite (t : ThreatLevel) :
    threatOrd ThreatLevel.high ≤
      threatOrd (if threatOrd ThreatLevel.high > threatOrd t then ThreatLevel.high else t) := by
  split_ifs with hc
  · exact Nat.le_refl _
  · exact Nat.le_of_not_lt hc

/-- When the heuristic decode fires, `analyze` carries the synthetic tag
and a threat level at least HIGH. -/
theorem analyze_b64_tag (sa : StaticAnalyzer) (text : List Char)
    (h : sa.check_base64_payloads text = true) :
    chars "heuristic:base64_decoded_threat" ∈ (sa.analyze text).matched_patterns ∧
    threatOrd ThreatLevel.high ≤ threatOrd (sa.analyze text).threat_level := by
  unfold StaticAnalyzer.analyze
  simp only [h, eq_self_iff_true, true_and, if_true]
  constructor
  · apply List.mem_append_right
    simp
  · exact high_le_ite _

/-- C5: the heuristic decoder of `StaticAnalyzer.analyze` attempts base-64
decoding only on runs of at least 20 alphabet characters (a maximal run of
exactly 20, delimited by non-run characters, is scanned as one candidate);
each successfully decoded run is re-scanned by the dictionary matcher only
(the outcome depends on nothing but the single-level decodes and the
dictionary hits in them); and when any decoded run contains a dictionary
pattern the result carries the tag "heuristic:base64_decoded_threat" and a
threat level of at least HIGH. -/
theorem base64_heuristic_decode (sa : StaticAnalyzer) (text pre run post : List Char) :
    (∀ blob ∈ b64Scan text, 20 ≤ (blob.takeWhile isB64Char).length) ∧
    ((∀ c ∈ pre, ¬ isB64Char c) → run.length = 20 → (∀ c ∈ run, isB64Char c) →
      (∀ c ∈ post, ¬ isB64Char c ∧ ¬ c.toNat = 61) →
      b64Scan (pre ++ run ++ post) = [run]) ∧
    (sa.check_base64_payloads text = true ↔
      ∃ blob ∈ b64Scan text, ∃ bs, b64decode blob = some bs ∧
        findAll sa.blocked_commands (utf8DecodeIgnore bs) ≠ []) ∧
    (sa.check_base64_payloads text = true →
      chars "heuristic:base64_decoded_threat" ∈ (sa.analyze text).matched_patterns ∧
      threatOrd ThreatLevel.high ≤ threatOrd (sa.analyze text).threat_level) :=
  ⟨b64ScanGo_min_run text ScanState.idle trivial,
   fun hpre hlen hrun hpost => b64Scan_exact pre run post hpre (by omega) hrun hpost,
   check_base64_iff sa text,
   analyze_b64_tag sa text⟩

/-- The concrete analyzer used by witnesses: default blocked commands, and
a regex battery with no matches on the witness payloads. -/
def witnessAnalyzer : StaticAnalyzer :=
  { blocked_commands := defaultBlockedCommands, regexHits := fun _ => [] }

/-- Witness payload for C5: a 36-char base-64 run whose decoding is
"rm -rf / --no-preserve-root". -/
def c5text : List Char := chars "x cm0gLXJmIC8gLS1uby1wcmVzZXJ2ZS1yb290 y"

/-- C5 witness: all candidates on the payload have runs ≥ 20; a bracketed
maximal 20-char run is scanned whole; the decoded 36-char run contains the
"rm -rf" dictionary literal, so the heuristic fires, tagging the result
and raising the level to at least HIGH. -/
theorem base64_heuristic_decode_witness :
    (∀ blob ∈ b64Scan c5text, 20 ≤ (blob.takeWhile isB64Char).length) ∧
    b64Scan (chars "> " ++ chars "cm0gLXJmIC9ob21lL3Vz" ++ chars " <") =
      [chars "cm0gLXJmIC9ob21lL3Vz"] ∧
    witnessAnalyzer.check_base64_payloads c5text = true ∧
    chars "heuristic:base64_decoded_threat" ∈
      (witnessAnalyzer.analyze c5text).matched_patterns ∧
    threatOrd ThreatLevel.high ≤ threatOrd (witnessAnalyzer.analyze c5text).threat_level := by
  have h := base64_heuristic_decode witnessAnalyzer c5text
    (chars "> ") (chars "cm0gLXJmIC9ob21lL3Vz") (chars " <")
  have hc : witnessAnalyzer.check_base64_payloads c5text = true := by decide
  have htag := h.2.2.2 hc
  exact ⟨h.1, h.2.1 (by decide) (by decide) (by decide) (by decide), hc, htag.1, htag.2⟩


/-- JSON-RPC id values (`Union[str, int, None]`; notifications have no id). -/
inductive RpcId
  | str (s : List Char)
  | num (n : Int)
  | null
deriving DecidableEq, Repr

/-- `models.JsonRpcRequest` — the validated inbound envelope.  The constant
`jsonrpc` member and any extra members (`extra="allow"`) are retained by
pydantic but read by nothing; absent `params` is the default `None`. -/
structure JsonRpcRequest where
  method : List Char
  params : Json
  id : RpcId

/-- `models.JsonRpcError` — standard JSON-RPC 2.0 error object. -/
structure JsonRpcError where
  code : Int
  message : List Char
  data : Json

/-- `models.JsonRpcResponse` — outbound response (`result` defaults to
`None`). -/
structure JsonRpcResponse where
  result : Json
  error : Option JsonRpcError
  id : RpcId

/-- `JsonRpcRequest.model_validate` on a parsed JSON value: the envelope
must be an object; `jsonrpc`, when present, must be the literal "2.0";
`method` is a required string (pydantic v2 does not coerce other types);
`params` is arbitrary (absent ⇒ `None`); `id`, when present, must be a
string, an integer or null.  Extra members are allowed. -/
def modelValidate (j : Json) : Except (List Char) JsonRpcRequest :=
  match j with
  | Json.obj kvs =>
      let lookup := fun (k : List Char) =>
        (kvs.find? (fun kv => kv.1 == k)).map (fun kv => kv.2)
      (match lookup (chars "jsonrpc") with
       | Option.none => Except.ok ()
       | some (Json.str s) =>
           if s = chars "2.0" then Except.ok ()
           else Except.error (chars "validation error: jsonrpc")
       | some _ => Except.error (chars "validation error: jsonrpc")).bind (fun _ =>
      (match lookup (chars "method") with
       | some (Json.str m) => Except.ok m
       | some _ => Except.error (chars "validation error: method")
       | Option.none => Except.error (chars "validation error: method missing")).bind (fun m =>
      (match lookup (chars "id") with
       | Option.none => Except.ok RpcId.null
       | some Json.null => Except.ok RpcId.null
       | some (Json.str s) => Except.ok (RpcId.str s)
       | some (Json.num n) => Except.ok (RpcId.num n)
       | some _ => Except.error (chars "validation error: id")).bind (fun i =>
      Except.ok { method := m, params := (lookup (chars "params")).getD Json.null, id := i })))
  | _ => Except.error (chars "validation error: not an object")

/-- `models.AnalysisResult` — the combined analysis record.  `request_id`
is the value the default factory generated for this call (see
`mkRequestId`); the wall `timestamp` member is not modelled. -/
structure AnalysisResult where
  request_id : List Char
  l1_matched_patterns : List (List Char)
  l1_threat_level : ThreatLevel
  l2_is_injection : Bool
  l2_confidence : ℚ
  l2_reasoning : List Char
  verdict : Verdict
  threat_level : ThreatLevel
  blocked_reason : List Char

/-- `AnalysisResult(...)` with every member other than `request_id` at its
declared default. -/
def AnalysisResult.mkDefault (rid : List Char) : AnalysisResult :=
  { request_id := rid, l1_matched_patterns := [], l1_threat_level := ThreatLevel.none,
    l2_is_injection := false, l2_confidence := 0, l2_reasoning := [],
    verdict := Verdict.allow, threat_level := ThreatLevel.none, blocked_reason := [] }

/-- `interceptor._SAFE_METHODS` (a frozenset; membership only). -/
def safeMethods : List (List Char) :=
  [chars "initialize", chars "initialized", chars "ping", chars "tools/list",
   chars "resources/list", chars "resources/templates/list", chars "prompts/list",
   chars "logging/setLevel"]

/-- `interceptor._HIGH_RISK_METHODS` (a frozenset; membership only). -/
def highRiskMethods : List (List Char) :=
  [chars "tools/call", chars "completion/complete", chars "sampling/createMessage"]

/-- `interceptor.intercept_and_analyze`.  The transport hands over the raw
payload text together with the result of `orjson.loads` on it (`orjson` is
an external library; a failure carries the exception text, and the one
`try` block covers both the load and the validation).  The analyzers are
the injected dependencies: `l1` is `static_analyzer.analyze` and `l2` is
`semantic_analyzer.analyze` on (method, params, session messages).  `rid`
is the request id generated by the `AnalysisResult` default factory for
this call.  The audit and dashboard emissions of steps 7–8 invoke effect
callbacks only — their failures are caught and logged and alter nothing
returned.  Returns (parsed request, analysis, optional blocking response,
updated session). -/
def interceptAndAnalyze
    (raw : List Char) (parsed : Except (List Char) Json)
    (session : SessionContext)
    (l1 : List Char → L1Result)
    (l2 : List Char → Json → List Msg → L2Result)
    (rid : List Char) :
    JsonRpcRequest × AnalysisResult × Option JsonRpcResponse × SessionContext :=
  match parsed.bind modelValidate with
  | Except.error exc =>
      ({ method := chars "<parse_error>", params := Json.null, id := RpcId.null },
       { AnalysisResult.mkDefault rid with
           verdict := Verdict.block,
           blocked_reason := chars "Parse error: " ++ exc },
       some { result := Json.null,
              error := some { code := -32700, message := chars "Parse error",
                              data := Json.str exc },
              id := RpcId.null },
       session)
  | Except.ok request =>
      if request.method ∈ safeMethods then
        (request, AnalysisResult.mkDefault rid, Option.none,
         session.push_message (chars "agent")
           (Json.obj [(chars "method", Json.str request.method)]))
      else
        let l1_result := l1 raw
        let run_l2 := request.method ∈ highRiskMethods ∨
          l1_result.threat_level ≠ ThreatLevel.none
        let l2_result :=
          if run_l2 ∧ l1_result.threat_level ≠ ThreatLevel.critical
          then l2 request.method request.params session.messages
          else L2Result.mkDefault
        let vtr := computeVerdict l1_result l2_result
        let analysis : AnalysisResult :=
          { request_id := rid,
            l1_matched_patterns := l1_result.matched_patterns,
            l1_threat_level := l1_result.threat_level,
            l2_is_injection := l2_result.is_injection,
            l2_confidence := l2_result.confidence,
            l2_reasoning := l2_result.reasoning,
            verdict := vtr.1, threat_level := vtr.2.1, blocked_reason := vtr.2.2 }
        let session2 := session.push_message (chars "agent")
          (Json.obj [(chars "method", Json.str request.method),
                     (chars "params_preview", Json.str ((pyStr request.params).take 200)),
                     (chars "verdict", Json.str vtr.1.value)])
        let block_response : Option JsonRpcResponse :=
          if vtr.1 = Verdict.block then
            some { result := Json.null,
                   error := some { code := -32001,
                                   message := chars "Request blocked by Agent Firewall",
                                   data := Json.obj
                                     [(chars "threat_level", Json.str vtr.2.1.value),
                                      (chars "reason", Json.str vtr.2.2),
                                      (chars "request_id", Json.str rid)] },
                   id := request.id }
          else Option.none
        (request, analysis, block_response, session2)

/-- C3: on a payload that fails JSON parsing or envelope validation, the
interceptor returns verdict BLOCK together with a synthetic response whose
error code is -32700, records a reason beginning with "Parse error: ", and
leaves the session buffer unchanged. -/
theorem parse_error_path (raw : List Char) (parsed : Except (List Char) Json)
    (session : SessionContext) (l1 : List Char → L1Result)
    (l2 : List Char → Json → List Msg → L2Result) (rid exc : List Char)
    (h : parsed.bind modelValidate = Except.error exc) :
    (interceptAndAnalyze raw parsed session l1 l2 rid).2.1.verdict = Verdict.block ∧
    (∃ resp err, (interceptAndAnalyze raw parsed session l1 l2 rid).2.2.1 = some resp ∧
      resp.error = some err ∧ err.code = -32700) ∧
    (∃ rest, (interceptAndAnalyze raw parsed session l1 l2 rid).2.1.blocked_reason =
      chars "Parse error: " ++ rest) ∧
    (interceptAndAnalyze raw parsed session l1 l2 rid).2.2.2 = session := by
  unfold interceptAndAnalyze
  rw [h]
  exact ⟨rfl, ⟨_, _, rfl, rfl, rfl⟩, ⟨exc, rfl⟩, rfl⟩

/-- C3 witness: a failed parse (malformed bytes) at concrete inputs. -/
theorem parse_error_path_witness :
    (interceptAndAnalyze (chars "not valid json") (Except.error (chars "unexpected character"))
      { messages := [], max_messages := 64 } (fun _ => L1Result.mk [] ThreatLevel.none)
      (fun _ _ _ => L2Result.mkDefault)
      (chars "00aabbccddee")).2.1.verdict = Verdict.block ∧
    (∃ resp err, (interceptAndAnalyze (chars "not valid json")
      (Except.error (chars "unexpected character"))
      { messages := [], max_messages := 64 } (fun _ => L1Result.mk [] ThreatLevel.none)
      (fun _ _ _ => L2Result.mkDefault)
      (chars "00aabbccddee")).2.2.1 = some resp ∧
      resp.error = some err ∧ err.code = -32700) ∧
    (∃ rest, (interceptAndAnalyze (chars "not valid json")
      (Except.error (chars "unexpected character"))
      { messages := [], max_messages := 64 } (fun _ => L1Result.mk [] ThreatLevel.none)
      (fun _ _ _ => L2Result.mkDefault)
      (chars "00aabbccddee")).2.1.blocked_reason = chars "Parse error: " ++ rest) ∧
    (interceptAndAnalyze (chars "not valid json") (Except.error (chars "unexpected character"))
      { messages := [], max_messages := 64 } (fun _ => L1Result.mk [] ThreatLevel.none)
      (fun _ _ _ => L2Result.mkDefault)
      (chars "00aabbccddee")).2.2.2 = { messages := [], max_messages := 64 } :=
  parse_error_path _ _ _ _ _ _ _ rfl

/-- When the buffer has room, a push is a plain append. -/
theorem push_message_no_evict (s : SessionContext) (role : List Char) (content : Json)
    (h : (s.messages.length : Int) + 1 ≤ s.max_messages) :
    (s.push_message role content).messages = s.messages ++ [Msg.mk role content] := by
  unfold SessionContext.push_message
  have hcond : ¬ (((s.messages ++ [Msg.mk role content]).length : Int) > s.max_messages) := by
    simp only [List.length_append, List.length_cons, List.length_nil]
    push_cast
    omega
  simp [hcond]
  intro h2
  exact absurd h2 (not_lt.mpr h)

/-- C4: a request whose method is in the safe set is allowed with no
blocking response, the result is independent of both analyzers (neither L1
nor L2 is invoked), and the session gains exactly the one pushed entry. -/
theorem safe_method_fast_path (raw : List Char) (parsed : Except (List Char) Json)
    (session : SessionContext)
    (l1 l1a : List Char → L1Result) (l2 l2a : List Char → Json → List Msg → L2Result)
    (rid : List Char) (request : JsonRpcRequest)
    (hok : parsed.bind modelValidate = Except.ok request)
    (hsafe : request.method ∈ safeMethods) :
    interceptAndAnalyze raw parsed session l1 l2 rid =
      (request, AnalysisResult.mkDefault rid, Option.none,
        session.push_message (chars "agent")
          (Json.obj [(chars "method", Json.str request.method)])) ∧
    (interceptAndAnalyze raw parsed session l1 l2 rid).2.1.verdict = Verdict.allow ∧
    interceptAndAnalyze raw parsed session l1 l2 rid =
      interceptAndAnalyze raw parsed session l1a l2a rid ∧
    ((session.messages.length : Int) + 1 ≤ session.max_messages →
      (interceptAndAnalyze raw parsed session l1 l2 rid).2.2.2.messages =
        session.messages ++
          [Msg.mk (chars "agent")
            (Json.obj [(chars "method", Json.str request.method)])]) := by
  have hstep : ∀ (f1 : List Char → L1Result) (f2 : List Char → Json → List Msg → L2Result),
      interceptAndAnalyze raw parsed session f1 f2 rid =
        (request, AnalysisResult.mkDefault rid, Option.none,
          session.push_message (chars "agent")
            (Json.obj [(chars "method", Json.str request.method)])) := by
    intro f1 f2
    unfold interceptAndAnalyze
    rw [hok]
    simp only [if_pos hsafe]
  refine ⟨hstep l1 l2, by rw [hstep l1 l2]; rfl, by rw [hstep l1 l2, hstep l1a l2a], ?_⟩
  intro hroom
  rw [hstep l1 l2]
  exact push_message_no_evict session _ _ hroom

/-- C4 witness: a `tools/list` request on an empty session, with two
different analyzer pairs. -/
theorem safe_method_fast_path_witness :
    interceptAndAnalyze (chars "ignored") (Except.ok (Json.obj
        [(chars "jsonrpc", Json.str (chars "2.0")),
         (chars "method", Json.str (chars "tools/list")), (chars "id", Json.num 1)]))
      { messages := [], max_messages := 64 }
      (fun _ => L1Result.mk [] ThreatLevel.none)
      (fun _ _ _ => L2Result.mkDefault) (chars "ffeeddccbbaa") =
      ({ method := chars "tools/list", params := Json.null, id := RpcId.num 1 },
        AnalysisResult.mkDefault (chars "ffeeddccbbaa"), Option.none,
        SessionContext.push_message { messages := [], max_messages := 64 } (chars "agent")
          (Json.obj [(chars "method", Json.str (chars "tools/list"))])) ∧
    (interceptAndAnalyze (chars "ignored") (Except.ok (Json.obj
        [(chars "jsonrpc", Json.str (chars "2.0")),
         (chars "method", Json.str (chars "tools/list")), (chars "id", Json.num 1)]))
      { messages := [], max_messages := 64 }
      (fun _ => L1Result.mk [] ThreatLevel.none)
      (fun _ _ _ => L2Result.mkDefault) (chars "ffeeddccbbaa")).2.1.verdict =
      Verdict.allow ∧
    interceptAndAnalyze (chars "ignored") (Except.ok (Json.obj
        [(chars "jsonrpc", Json.str (chars "2.0")),
         (chars "method", Json.str (chars "tools/list")), (chars "id", Json.num 1)]))
      { messages := [], max_messages := 64 }
      (fun _ => L1Result.mk [] ThreatLevel.none)
      (fun _ _ _ => L2Result.mkDefault) (chars "ffeeddccbbaa") =
    interceptAndAnalyze (chars "ignored") (Except.ok (Json.obj
        [(chars "jsonrpc", Json.str (chars "2.0")),
         (chars "method", Json.str (chars "tools/list")), (chars "id", Json.num 1)]))
      { messages := [], max_messages := 64 }
      (fun _ => L1Result.mk [chars "ac:rm -rf"] ThreatLevel.critical)
      (fun _ _ _ => L2Result.mk true 1 [] ThreatLevel.critical) (chars "ffeeddccbbaa") ∧
    (((({ messages := [], max_messages := 64 } : SessionContext)).messages.length : Int) + 1 ≤
        (({ messages := [], max_messages := 64 } : SessionContext)).max_messages →
      (interceptAndAnalyze (chars "ignored") (Except.ok (Json.obj
          [(chars "jsonrpc", Json.str (chars "2.0")),
           (chars "method", Json.str (chars "tools/list")), (chars "id", Json.num 1)]))
        { messages := [], max_messages := 64 }
        (fun _ => { matched_patterns := [], threat_level := ThreatLevel.none })
        (fun _ _ _ => L2Result.mkDefault) (chars "ffeeddccbbaa")).2.2.2.messages =
        ({ messages := [], max_messages := 64 } : SessionContext).messages ++
          [Msg.mk (chars "agent")
            (Json.obj [(chars "method", Json.str (chars "tools/list"))])]) :=
  safe_method_fast_path _ _ _ _ _ _ _ _ _ rfl (by decide)

/-- The concrete escalating payload for the C2 counterexample:
a `tools/call` whose serialized text contains the "rm -rf" literal. -/
def c2json : Json :=
  Json.obj [(chars "jsonrpc", Json.str (chars "2.0")),
            (chars "method", Json.str (chars "tools/call")),
            (chars "params", Json.obj [(chars "command", Json.str (chars "rm -rf"))]),
            (chars "id", Json.num 1)]

/-- The raw text of `c2json` as received on the wire. -/
def c2raw : List Char :=
  chars "\x7b\"jsonrpc\":\"2.0\",\"method\":\"tools/call\",\"params\":\x7b\"command\":\"rm -rf\"\x7d,\"id\":1\x7d"

/-- C2 counterexample: this payload trips the L1 "rm -rf" dictionary
literal (HIGH) while the injected L2 analyzer reports no injection (the
fail-open default), so the interceptor ESCALATEs: the verdict is not ALLOW
yet no synthetic blocking response is produced, refuting the claimed
biconditional. -/
theorem allow_iff_none_counterexample :
    (interceptAndAnalyze c2raw (Except.ok c2json) { messages := [], max_messages := 64 }
      (fun payload => witnessAnalyzer.analyze payload)
      (fun _ _ _ => L2Result.mkDefault) (chars "00112233aabb")).2.2.1 = Option.none ∧
    (interceptAndAnalyze c2raw (Except.ok c2json) { messages := [], max_messages := 64 }
      (fun payload => witnessAnalyzer.analyze payload)
      (fun _ _ _ => L2Result.mkDefault) (chars "00112233aabb")).2.1.verdict ≠
      Verdict.allow :=
  ⟨rfl, by decide⟩

/-- C2 (amended): the interceptor returns no synthetic blocking response
exactly when the final verdict is not BLOCK — ALLOW and ESCALATE both
return none; only BLOCK produces a response. -/
theorem block_response_iff (raw : List Char) (parsed : Except (List Char) Json)
    (session : SessionContext) (l1 : List Char → L1Result)
    (l2 : List Char → Json → List Msg → L2Result) (rid : List Char) :
    (interceptAndAnalyze raw parsed session l1 l2 rid).2.2.1 = Option.none ↔
      (interceptAndAnalyze raw parsed session l1 l2 rid).2.1.verdict ≠ Verdict.block := by
  unfold interceptAndAnalyze
  cases hpv : parsed.bind modelValidate with
  | error exc => simp
  | ok request =>
      by_cases hs : request.method ∈ safeMethods
      · simp [if_pos hs, AnalysisResult.mkDefault]
      · simp only [if_neg hs]
        by_cases hv :
            (computeVerdict (l1 raw)
              (if (request.method ∈ highRiskMethods ∨
                    (l1 raw).threat_level ≠ ThreatLevel.none) ∧
                  (l1 raw).threat_level ≠ ThreatLevel.critical
               then l2 request.method request.params session.messages
               else L2Result.mkDefault)).1 = Verdict.block
        · simp [hv]
        · simp [hv]

end AgentFirewall
